import Mathlib

/-!
# A formal model of the electron-ssr core

This file embeds, in Lean, the data model and the operations of the
electron-ssr bridge (`createSSR`): the route registry and dispatcher, the
streaming-connection manager (`ssr.sseConnections`, broadcast, close, abort
cleanup) and the two event framers (plain SSE framing and the structured
datastar patch framing).

The repository snapshot carries the example applications (which call
`ssr.registerRoute`, iterate `ssr.sseConnections`, write SSE frames and use
`ssr.datastarMergeSignals` / `ssr.datastarMergeFragments` /
`ssr.datastarExecuteScript`); the library body itself is not among the staged
files, so the manager and dispatcher operations below are modelled from the
specification's contracts, while the framing of payload lines follows the
split/map/join pattern used verbatim at the broadcast sites of the examples.

Machine-level conventions: a writable stream is modelled by its `destroyed`
flag together with the list of chunks written to it so far and a counter of
how many times it has been ended (so that releasing a resource twice is
observable); JavaScript string `.split('\n')` is modelled on the character
list of the string.
-/

/-- The lines of a string, split at every newline character.
Embeds the JavaScript `s.split('\n')` used at the SSE formatting sites
(`mainContent.split('\n')`): splitting the character list at `'\n'`. -/
def splitNewlines (s : String) : List String :=
  (s.data.splitOnP (· == '\n')).map String.mk

/-- The `data:` block of an SSE frame, as the source builds it:
`.split('\n').map((line) => "data: " + line).join('\n')`
(the split/map/join chain computing `sseFormattedContent`). -/
def sseDataBlock (payload : String) : String :=
  String.intercalate "\n" ((splitNewlines payload).map (fun l => "data: " ++ l))

/-- Modelled from the spec: the plain-SSE framer of the library is not among
the staged files; per §4.5 a frame is `event: <name>\n` (only if a name is
present) followed by the `data:` block and a record-terminating blank line.
The `data:` block is `sseDataBlock`, the exact chain the broadcast sites of
the examples use, and the frame text written to a stream is that block
followed by `"\n\n"` (the final data line's newline plus the blank line),
exactly as in `connection.stream.write(sseFormattedContent + "\n\n")`. -/
def sseFrame (name : Option String) (payload : String) : String :=
  (match name with
    | some n => "event: " ++ n ++ "\n"
    | none => "") ++ sseDataBlock payload ++ "\n\n"

/-- The spec's own description of the plain SSE frame, line by line: one
`data: <line>\n` per line of the payload. Used to compare `sseFrame`
(built by the source's split/map/join chain) against the specified shape. -/
def specDataLines : List String → String
  | [] => ""
  | l :: ls => "data: " ++ l ++ "\n" ++ specDataLines ls

/-- The spec's description of the whole frame: the optional `event:` line,
one `data: <line>\n` per payload line, then one trailing blank line. -/
def sseFrameSpec (name : Option String) (payload : String) : String :=
  (match name with
    | some n => "event: " ++ n ++ "\n"
    | none => "") ++ specDataLines (splitNewlines payload) ++ "\n"

theorem splitNewlines_ne_nil (s : String) : splitNewlines s ≠ [] := by
  simp [splitNewlines, List.splitOnP_ne_nil]

theorem intercalate_go_data (as : List String) : ∀ acc : String,
    String.intercalate.go acc "\n" (as.map (fun l => "data: " ++ l)) ++ "\n\n"
      = acc ++ "\n" ++ specDataLines as ++ "\n" := by
  induction as with
  | nil =>
      intro acc
      show acc ++ "\n\n" = acc ++ "\n" ++ "" ++ "\n"
      simp [String.append_assoc]
  | cons a t ih =>
      intro acc
      show String.intercalate.go (acc ++ "\n" ++ ("data: " ++ a)) "\n"
            (t.map (fun l => "data: " ++ l)) ++ "\n\n"
          = acc ++ "\n" ++ ("data: " ++ a ++ "\n" ++ specDataLines t) ++ "\n"
      rw [ih]
      simp [String.append_assoc]

theorem sseDataBlock_spec (payload : String) :
    sseDataBlock payload ++ "\n\n" = specDataLines (splitNewlines payload) ++ "\n" := by
  unfold sseDataBlock
  rcases h : splitNewlines payload with _ | ⟨a, as⟩
  · exact absurd h (splitNewlines_ne_nil payload)
  · show String.intercalate "\n" (("data: " ++ a) :: as.map (fun l => "data: " ++ l)) ++ "\n\n"
        = specDataLines (a :: as) ++ "\n"
    show String.intercalate.go ("data: " ++ a) "\n" (as.map (fun l => "data: " ++ l)) ++ "\n\n"
        = specDataLines (a :: as) ++ "\n"
    match as with
    | [] =>
        show ("data: " ++ a) ++ "\n\n" = ("data: " ++ a ++ "\n" ++ "") ++ "\n"
        simp [String.append_assoc]
    | b :: t =>
        show String.intercalate.go (("data: " ++ a) ++ "\n" ++ ("data: " ++ b)) "\n"
              (t.map (fun l => "data: " ++ l)) ++ "\n\n"
            = specDataLines (a :: b :: t) ++ "\n"
        rw [intercalate_go_data t]
        show ("data: " ++ a) ++ "\n" ++ ("data: " ++ b) ++ "\n" ++ specDataLines t ++ "\n"
            = ("data: " ++ a ++ "\n" ++ ("data: " ++ b ++ "\n" ++ specDataLines t)) ++ "\n"
        simp [String.append_assoc]

/-- Claim C2: for every optional event name and every payload string, the
plain-SSE framer produces exactly the `event: <name>` line when a name is
present, then one `data: <line>` line (newline-terminated) per
newline-separated line of the payload, then one trailing blank line
(`sseFrame` agrees with the spec-shaped `sseFrameSpec` everywhere); in
particular the payload `"a\nb"` under event `"y"` frames as `data: a`,
`data: b`, then one blank line. -/
theorem sseFrame_eq_spec :
    (∀ (name : Option String) (payload : String),
      sseFrame name payload = sseFrameSpec name payload)
    ∧ sseFrame (some "y") "a\nb" = "event: y\ndata: a\ndata: b\n\n" := by
  constructor
  · intro name payload
    unfold sseFrame sseFrameSpec
    rw [String.append_assoc, sseDataBlock_spec, String.append_assoc]
  · decide

/-- Modelled from the spec: the structured signal-patch framer
(`ssr.datastarMergeSignals`) is not among the staged files; per §4.5 a
signals patch is delivered as an SSE frame whose event-type marker
distinguishes the sub-format and whose `data:` payload carries the JSON
object to merge into client-side reactive state. -/
def datastarMergeSignals (signals : String) : String :=
  sseFrame (some "datastar-merge-signals") ("signals " ++ signals)

/-- Modelled from the spec: the fragment-patch framer
(`ssr.datastarMergeFragments`) is not among the staged files; per §4.5 a
fragment patch is an SSE frame carrying a target selector, a merge mode and
an HTML string inside its `data:` payload. The call sites of the examples
pass `(selector, html, mergeMode)` in that order. -/
def datastarMergeFragments (selector html mergeMode : String) : String :=
  sseFrame (some "datastar-merge-fragments")
    ("selector " ++ selector ++ "\nmergeMode " ++ mergeMode ++ "\nfragments " ++ html)

/-- Modelled from the spec: the script-exec framer
(`ssr.datastarExecuteScript`) is not among the staged files; per §4.5 a
script-exec frame carries a literal script body inside its `data:` payload,
delivered as an SSE frame with its own event-type marker. -/
def datastarExecuteScript (script : String) : String :=
  sseFrame (some "datastar-execute-script") ("script " ++ script)

/-- Claim C9: both framing layers — the plain SSE framer and the structured
patch framers (`datastarMergeSignals`, `datastarMergeFragments`,
`datastarExecuteScript`) — are deterministic: two calls on equal inputs
produce equal wire text.  Purity (no mutation of observable state) holds by
construction: each framer is a function of its arguments alone and takes no
connection-manager or registry state. -/
theorem framers_deterministic (n1 n2 : Option String) (p1 p2 s1 s2 sel1 sel2
    h1 h2 m1 m2 sc1 sc2 : String) :
    n1 = n2 → p1 = p2 → s1 = s2 → sel1 = sel2 → h1 = h2 → m1 = m2 → sc1 = sc2 →
    sseFrame n1 p1 = sseFrame n2 p2
    ∧ datastarMergeSignals s1 = datastarMergeSignals s2
    ∧ datastarMergeFragments sel1 h1 m1 = datastarMergeFragments sel2 h2 m2
    ∧ datastarExecuteScript sc1 = datastarExecuteScript sc2 := by
  intro hn hp hs hsel hh hm hsc
  subst hn hp hs hsel hh hm hsc
  exact ⟨rfl, rfl, rfl, rfl⟩

/-- Closed witness for `framers_deterministic` at concrete inputs. -/
theorem framers_deterministic_witness :
    sseFrame (some "x") "hello" = sseFrame (some "x") "hello"
    ∧ datastarMergeSignals "sig" = datastarMergeSignals "sig"
    ∧ datastarMergeFragments "#a" "<p>t</p>" "inner"
        = datastarMergeFragments "#a" "<p>t</p>" "inner"
    ∧ datastarExecuteScript "code" = datastarExecuteScript "code" :=
  framers_deterministic (some "x") (some "x") "hello" "hello" "sig" "sig"
    "#a" "#a" "<p>t</p>" "<p>t</p>" "inner" "inner" "code" "code"
    rfl rfl rfl rfl rfl rfl rfl

/-- A writable stream as the connection manager observes it: the `destroyed`
flag the broadcast sites guard on (`!connection.stream.destroyed`), the
chunks written so far, and how many times the stream has been ended
(so that a double release would be visible as `endCount > 1`). -/
structure SSEStream where
  destroyed : Bool
  written : List String
  endCount : Nat
deriving DecidableEq

/-- The cancellation signal of the request that opened a connection:
whether it has fired, and how many times the registered abort callback has
been invoked (`request.signal.addEventListener('abort', ...)`). -/
structure AbortSignal where
  aborted : Bool
  listenerFired : Nat
deriving DecidableEq

/-- One open streaming channel, per the spec's data model: identity, the
underlying writable stream, a creation timestamp, a closed flag, the
cancellation signal of the originating request, and (for stating the
insertion-time invariant) the value of `stream.destroyed` recorded when the
manager inserted the entry. -/
structure Connection where
  id : Nat
  stream : SSEStream
  createdAt : Nat
  closed : Bool
  signal : AbortSignal
  openedDestroyed : Bool
deriving DecidableEq

/-- Writing a chunk to a stream: appended when the stream is alive, dropped
when it is destroyed (a write to a dead stream delivers nothing). -/
def SSEStream.write (s : SSEStream) (chunk : String) : SSEStream :=
  if s.destroyed then s else { s with written := s.written ++ [chunk] }

/-- Ending a stream: a no-op on an already-destroyed stream, otherwise the
stream becomes destroyed and the release is counted once. -/
def SSEStream.closeStream (s : SSEStream) : SSEStream :=
  if s.destroyed then s else { s with destroyed := true, endCount := s.endCount + 1 }

/-- Modelled from the spec §4.4 `close(id)`, per entry: mark the Connection
closed (removing it from the tracked set) and — if not already closed —
close the underlying stream; closing an already-closed entry is a no-op. -/
def Connection.closeEntry (c : Connection) : Connection :=
  if c.closed then c else { c with closed := true, stream := c.stream.closeStream }

/-- Modelled from the spec: delivery of the abort event to one connection.
The host's cancellation signal fires at most once; when it does, the
registered abort callback runs (counted in `listenerFired`) and the manager
closes the Connection (spec §4.4: "when a Request's cancellation signal
associated with a given Connection's originating request fires, the manager
closes that Connection exactly once"). -/
def Connection.onAbort (c : Connection) : Connection :=
  if c.signal.aborted then c
  else
    Connection.closeEntry
      { c with signal := { aborted := true, listenerFired := c.signal.listenerFired + 1 } }

/-- The connection manager's state: the collection backing the public
`ssr.sseConnections` member, plus the id allocator. -/
structure ManagerState where
  connections : List Connection
  nextId : Nat
deriving DecidableEq

/-- The public tracked set `ssr.sseConnections`: the connections not yet
closed, as the iterable the examples loop over
(`for (const connection of ssr.sseConnections)`). -/
def ManagerState.sseConnections (st : ManagerState) : List Connection :=
  st.connections.filter (fun c => !c.closed)

/-- `ssr.sseConnections.size`, as read by the examples. -/
def ManagerState.sseSize (st : ManagerState) : Nat :=
  st.sseConnections.length

/-- Modelled from the spec §4.4 `open(stream) -> ConnectionId`: allocate an
id, store a Connection entry (with a fresh, unfired cancellation signal from
the originating request and the creation timestamp), return the id. -/
def ManagerState.openConn (st : ManagerState) (s : SSEStream) (t : Nat) :
    ManagerState × Nat :=
  ({ connections := st.connections ++
      [{ id := st.nextId, stream := s, createdAt := t, closed := false,
         signal := { aborted := false, listenerFired := 0 },
         openedDestroyed := s.destroyed }],
     nextId := st.nextId + 1 }, st.nextId)

/-- Modelled from the spec §4.4 `close(id)`: apply `Connection.closeEntry`
to the entry (or entries) carrying that id; idempotent. -/
def ManagerState.close (st : ManagerState) (cid : Nat) : ManagerState :=
  { st with connections := st.connections.map (fun c =>
      if c.id = cid then c.closeEntry else c) }

/-- Modelled from the spec §4.4
`broadcast(eventName, payload, filter?) -> count`: for every tracked
Connection whose stream is not destroyed and that matches the filter, write
the framed event to that stream; a tracked Connection whose stream is
already destroyed is skipped and pruned (lazy cleanup); the count of
successful writes is returned. The per-entry guard mirrors the
`!connection.stream.destroyed` check of the broadcast loops. -/
def ManagerState.broadcast (st : ManagerState) (eventName : Option String)
    (payload : String) (keep : Connection → Bool) : ManagerState × Nat :=
  let frame := sseFrame eventName payload
  ({ st with connections := st.connections.map (fun c =>
      if c.closed then c
      else if c.stream.destroyed then { c with closed := true }
      else if keep c then { c with stream := c.stream.write frame }
      else c) },
   (st.connections.filter
      (fun c => !c.closed && !c.stream.destroyed && keep c)).length)

/-- The remote side (or a write failure) destroying the underlying stream of
a connection; an external event, not a manager operation. -/
def ManagerState.destroyStream (st : ManagerState) (cid : Nat) : ManagerState :=
  { st with connections := st.connections.map (fun c =>
      if c.id = cid then { c with stream := { c.stream with destroyed := true } } else c) }

/-- Modelled from the spec: the host fires the cancellation signal of the
request that opened connection `cid`; the registered abort callback runs and
the manager closes that Connection. -/
def ManagerState.fireAbort (st : ManagerState) (cid : Nat) : ManagerState :=
  { st with connections := st.connections.map (fun c =>
      if c.id = cid then c.onAbort else c) }

/-- Application code writing raw frame bytes directly to one tracked
connection's stream, outside of broadcast
(`connection.stream.write(sseFormattedContent)` in the examples). -/
def ManagerState.writeRaw (st : ManagerState) (cid : Nat) (chunk : String) : ManagerState :=
  { st with connections := st.connections.map (fun c =>
      if c.id = cid then { c with stream := c.stream.write chunk } else c) }

/-- Modelled from the spec §4.4 `closeAll()`: close every tracked
Connection (process-wide teardown). -/
def ManagerState.closeAll (st : ManagerState) : ManagerState :=
  { st with connections := st.connections.map Connection.closeEntry }

/-- The empty manager, as `createSSR` starts it: no tracked connections. -/
def ManagerState.init : ManagerState :=
  { connections := [], nextId := 0 }

/-- The manager states the system can reach: starting from the empty
manager, a handler may register a freshly opened (hence not destroyed)
stream, and any manager operation or external stream event may occur. -/
inductive Reachable : ManagerState → Prop where
  | init : Reachable ManagerState.init
  | openStep {st : ManagerState} {s : SSEStream} {t : Nat} :
      Reachable st → s.destroyed = false → Reachable (st.openConn s t).1
  | closeStep {st : ManagerState} {cid : Nat} :
      Reachable st → Reachable (st.close cid)
  | broadcastStep {st : ManagerState} {e : Option String} {p : String}
      {keep : Connection → Bool} :
      Reachable st → Reachable (st.broadcast e p keep).1
  | destroyStep {st : ManagerState} {cid : Nat} :
      Reachable st → Reachable (st.destroyStream cid)
  | abortStep {st : ManagerState} {cid : Nat} :
      Reachable st → Reachable (st.fireAbort cid)
  | writeStep {st : ManagerState} {cid : Nat} {chunk : String} :
      Reachable st → Reachable (st.writeRaw cid chunk)
  | closeAllStep {st : ManagerState} :
      Reachable st → Reachable st.closeAll

theorem forall₂_map_self {α : Type} {l : List α} {g : α → α} {R : α → α → Prop}
    (h : ∀ a ∈ l, R a (g a)) : List.Forall₂ R l (l.map g) :=
  List.forall₂_map_right_iff.2 (List.forall₂_same.2 h)

theorem filter_tracked_live (l : List Connection) (keep : Connection → Bool) :
    ((l.filter fun c => !c.closed).filter fun c => !c.stream.destroyed && keep c)
      = l.filter fun c => !c.closed && !c.stream.destroyed && keep c := by
  rw [List.filter_filter]
  apply List.filter_congr
  intro c _
  cases c.closed <;> cases c.stream.destroyed <;> simp

/-- Claim C1: `broadcast(eventName, payload, filter?)` writes the framed event
to exactly those tracked Connections whose stream is not destroyed and that
match the filter (their written chunks are extended by `sseFrame eventName
payload` and in no other case does a written list change), returns the
number of writes that succeeded, and prunes every tracked Connection whose
stream is already destroyed (it becomes closed, with nothing written to it).
The operation is a total function of the state: no individual dead
connection can make it raise. -/
theorem broadcast_correct (st : ManagerState) (e : Option String) (p : String)
    (keep : Connection → Bool) :
    (st.broadcast e p keep).2
      = (st.sseConnections.filter fun c => !c.stream.destroyed && keep c).length
    ∧ List.Forall₂ (fun c c' =>
        c'.id = c.id
        ∧ (c.closed = true → c' = c)
        ∧ (c.closed = false → c.stream.destroyed = false → keep c = true →
            c'.stream.written = c.stream.written ++ [sseFrame e p] ∧ c'.closed = false)
        ∧ (c.closed = false → c.stream.destroyed = true →
            c'.closed = true ∧ c'.stream = c.stream)
        ∧ (¬(c.closed = false ∧ c.stream.destroyed = false ∧ keep c = true) →
            c'.stream.written = c.stream.written))
      st.connections (st.broadcast e p keep).1.connections := by
  constructor
  · show (st.connections.filter fun c => !c.closed && !c.stream.destroyed && keep c).length
        = (st.sseConnections.filter fun c => !c.stream.destroyed && keep c).length
    rw [ManagerState.sseConnections, filter_tracked_live]
  · apply forall₂_map_self
    intro c _
    by_cases hcl : c.closed
    · simp [hcl]
    · by_cases hd : c.stream.destroyed
      · simp [hcl, hd]
      · by_cases hk : keep c
        · simp [hcl, hd, hk, SSEStream.write]
        · simp [hcl, hd, hk]

theorem closeEntry_id (c : Connection) : c.closeEntry.id = c.id := by
  unfold Connection.closeEntry
  split <;> rfl

theorem closeEntry_closed (c : Connection) (h : c.closed = false) :
    c.closeEntry.closed = true := by
  simp [Connection.closeEntry, h]

theorem closeEntry_idem (c : Connection) : c.closeEntry.closeEntry = c.closeEntry := by
  unfold Connection.closeEntry
  by_cases h : c.closed <;> simp [h]

/-- Claim C6: `close(id)` is idempotent and complete: one `close` removes the
connection from the tracked set (`sseConnections` holds no entry with that
id afterwards) and closes its underlying stream (the stream becomes
destroyed, its end is counted exactly once, nothing is written by the
close); a second `close(id)` leaves the whole manager state unchanged
(hence no resource is released twice); and after a `close(id)`, a
subsequent `broadcast` never writes to that id's stream. -/
theorem close_spec (st : ManagerState) (cid : Nat) :
    (st.close cid).close cid = st.close cid
    ∧ (∀ c ∈ (st.close cid).sseConnections, c.id ≠ cid)
    ∧ List.Forall₂ (fun c c' =>
        c'.id = c.id
        ∧ (c.id = cid → c.closed = false →
            c'.closed = true ∧ c'.stream.destroyed = true
            ∧ c'.stream.written = c.stream.written
            ∧ (c.stream.destroyed = false → c'.stream.endCount = c.stream.endCount + 1)
            ∧ (c.stream.destroyed = true → c'.stream = c.stream))
        ∧ (c.id = cid → c.closed = true → c' = c)
        ∧ (c.id ≠ cid → c' = c))
      st.connections (st.close cid).connections
    ∧ (∀ (e : Option String) (p : String) (keep : Connection → Bool),
        List.Forall₂ (fun c c' => c.id = cid → c'.stream.written = c.stream.written)
          st.connections (((st.close cid).broadcast e p keep).1).connections) := by
  refine ⟨?_, ?_, ?_, ?_⟩
  · show ({ st with connections := st.connections.map _ } : ManagerState).close cid
        = st.close cid
    unfold ManagerState.close
    simp only [List.map_map]
    congr 1
    apply List.map_congr_left
    intro c _
    by_cases h : c.id = cid
    · simp [Function.comp, h, closeEntry_id, closeEntry_idem]
    · simp [Function.comp, h]
  · intro c hc
    rcases List.mem_filter.1 hc with ⟨hc, hopen⟩
    rcases List.mem_map.1 hc with ⟨b, _, rfl⟩
    by_cases h : b.id = cid
    · exfalso
      simp only [h, if_true] at hopen
      by_cases hb : b.closed
      · simp [Connection.closeEntry, hb] at hopen
      · rw [closeEntry_closed b (by simp at hb; exact hb)] at hopen
        simp at hopen
    · simp [h]
  · apply forall₂_map_self
    intro c _
    by_cases h : c.id = cid
    · by_cases hb : c.closed
      · simp [h, hb, Connection.closeEntry]
      · simp [h, hb, Connection.closeEntry, SSEStream.closeStream]
        by_cases hd : c.stream.destroyed <;> simp [hd]
    · simp [h]
  · intro e p keep
    show List.Forall₂ _ st.connections
      (((st.connections.map fun c => if c.id = cid then c.closeEntry else c).map _))
    rw [List.map_map]
    apply forall₂_map_self
    intro c _
    intro hid
    by_cases hb : c.closed
    · simp [Function.comp, hid, Connection.closeEntry, hb]
    · simp [Function.comp, hid, Connection.closeEntry, hb, SSEStream.closeStream]
      by_cases hd : c.stream.destroyed <;> simp [hd]

theorem pres_map {l : List Connection} {g : Connection → Connection}
    {P : Connection → Prop}
    (hl : ∀ b ∈ l, P b) (hg : ∀ b, P b → P (g b)) : ∀ c ∈ l.map g, P c := by
  intro c hc
  rcases List.mem_map.1 hc with ⟨b, hb, rfl⟩
  exact hg b (hl b hb)

/-- In every reachable manager state, a connection whose cancellation signal
has fired is already closed: the manager never leaves an aborted connection
in the tracked set. -/
theorem reachable_aborted_closed {st : ManagerState} (h : Reachable st) :
    ∀ c ∈ st.connections, c.signal.aborted = true → c.closed = true := by
  induction h with
  | init =>
      intro c hc
      simp [ManagerState.init] at hc
  | openStep hst hdest ih =>
      intro c hc
      rw [ManagerState.openConn] at hc
      rcases List.mem_append.1 hc with hold | hnew
      · exact ih c hold
      · rw [List.mem_singleton] at hnew
        subst hnew
        intro hab
        simp at hab
  | closeStep hst ih =>
      rename_i st0 cid
      apply pres_map ih
      intro b hP
      by_cases h : b.id = cid
      · by_cases hb : b.closed <;> simp [h, hb, Connection.closeEntry]
      · simpa [h] using hP
  | broadcastStep hst ih =>
      rename_i st0 e p keep
      apply pres_map ih
      intro b hP
      by_cases hb : b.closed
      · simp [hb]
      · by_cases hd : b.stream.destroyed
        · simp [hb, hd]
        · by_cases hk : keep b <;> simpa [hb, hd, hk] using hP
  | destroyStep hst ih =>
      rename_i st0 cid
      apply pres_map ih
      intro b hP
      by_cases h : b.id = cid <;> simpa [h] using hP
  | abortStep hst ih =>
      rename_i st0 cid
      apply pres_map ih
      intro b hP
      by_cases h : b.id = cid
      · by_cases ha : b.signal.aborted
        · simpa [h, Connection.onAbort, ha] using hP
        · by_cases hb : b.closed <;>
            simp [h, Connection.onAbort, ha, Connection.closeEntry, hb]
      · simpa [h] using hP
  | writeStep hst ih =>
      rename_i st0 cid chunk
      apply pres_map ih
      intro b hP
      by_cases h : b.id = cid <;> simpa [h] using hP
  | closeAllStep hst ih =>
      apply pres_map ih
      intro b hP
      by_cases hb : b.closed <;> simp [Connection.closeEntry, hb]

/-- In every reachable manager state, every tracked entry was inserted while
its stream was not destroyed (the recorded insertion-time flag is false). -/
theorem reachable_opened_alive {st : ManagerState} (h : Reachable st) :
    ∀ c ∈ st.connections, c.openedDestroyed = false := by
  induction h with
  | init =>
      intro c hc
      simp [ManagerState.init] at hc
  | openStep hst hdest ih =>
      intro c hc
      rw [ManagerState.openConn] at hc
      rcases List.mem_append.1 hc with hold | hnew
      · exact ih c hold
      · rw [List.mem_singleton] at hnew
        subst hnew
        simpa using hdest
  | closeStep hst ih =>
      rename_i st0 cid
      apply pres_map ih
      intro b hP
      by_cases h : b.id = cid
      · by_cases hb : b.closed <;> simpa [h, hb, Connection.closeEntry] using hP
      · simpa [h] using hP
  | broadcastStep hst ih =>
      rename_i st0 e p keep
      apply pres_map ih
      intro b hP
      by_cases hb : b.closed
      · simpa [hb] using hP
      · by_cases hd : b.stream.destroyed
        · simpa [hb, hd] using hP
        · by_cases hk : keep b <;> simpa [hb, hd, hk] using hP
  | destroyStep hst ih =>
      rename_i st0 cid
      apply pres_map ih
      intro b hP
      by_cases h : b.id = cid <;> simpa [h] using hP
  | abortStep hst ih =>
      rename_i st0 cid
      apply pres_map ih
      intro b hP
      by_cases h : b.id = cid
      · by_cases ha : b.signal.aborted
        · simpa [h, Connection.onAbort, ha] using hP
        · by_cases hb : b.closed <;>
            simpa [h, Connection.onAbort, ha, Connection.closeEntry, hb] using hP
      · simpa [h] using hP
  | writeStep hst ih =>
      rename_i st0 cid chunk
      apply pres_map ih
      intro b hP
      by_cases h : b.id = cid <;> simpa [h] using hP
  | closeAllStep hst ih =>
      apply pres_map ih
      intro b hP
      by_cases hb : b.closed <;> simpa [Connection.closeEntry, hb] using hP

theorem closeEntry_signal (c : Connection) : c.closeEntry.signal = c.signal := by
  unfold Connection.closeEntry
  split <;> rfl

theorem onAbort_id (c : Connection) : c.onAbort.id = c.id := by
  unfold Connection.onAbort
  split
  · rfl
  · rw [closeEntry_id]

theorem onAbort_idem (c : Connection) : c.onAbort.onAbort = c.onAbort := by
  by_cases ha : c.signal.aborted
  · simp [Connection.onAbort, ha]
  · have h1 : c.onAbort.signal.aborted = true := by
      simp [Connection.onAbort, ha, closeEntry_signal]
    conv_lhs => rw [Connection.onAbort]
    rw [if_pos h1]

theorem onAbort_closed_of_not_aborted (c : Connection)
    (ha : c.signal.aborted = false) : c.onAbort.closed = true := by
  rw [Connection.onAbort, if_neg (by simp [ha])]
  by_cases hb : c.closed
  · simp [Connection.closeEntry, hb]
  · exact closeEntry_closed _ (by simp [hb])

/-- What firing the cancellation signal of connection `cid` must do (claim
C7): firing it a second time changes nothing (the callback cannot run
twice); afterwards no tracked connection carries that id; and entry-wise,
a connection with that id whose signal had not fired has its abort callback
invoked exactly once more, its signal marked, the manager closing it
(releasing its live stream exactly once), while every other connection is
untouched. -/
def AbortCleanupSpec (st : ManagerState) (cid : Nat) : Prop :=
  (st.fireAbort cid).fireAbort cid = st.fireAbort cid
  ∧ (∀ c ∈ (st.fireAbort cid).sseConnections, c.id ≠ cid)
  ∧ List.Forall₂ (fun c c' =>
      c'.id = c.id
      ∧ (c.id = cid → c.signal.aborted = false →
          c'.signal.listenerFired = c.signal.listenerFired + 1
          ∧ c'.signal.aborted = true
          ∧ c'.closed = true
          ∧ (c.closed = false → c.stream.destroyed = false →
              c'.stream.endCount = c.stream.endCount + 1))
      ∧ (c.id ≠ cid → c' = c))
    st.connections (st.fireAbort cid).connections

/-- Claim C7: in every reachable manager state, when the cancellation signal
associated with a tracked connection fires, the registered abort callback
fires exactly once, the manager closes that connection exactly once, and
the connection is absent from the tracked set once the event has been
processed (`AbortCleanupSpec`). -/
theorem abort_closes_once : ∀ (st : ManagerState) (cid : Nat),
    Reachable st → AbortCleanupSpec st cid := by
  intro st cid hreach
  refine ⟨?_, ?_, ?_⟩
  · show ({ st with connections := st.connections.map _ } : ManagerState).fireAbort cid
        = st.fireAbort cid
    unfold ManagerState.fireAbort
    simp only [List.map_map]
    congr 1
    apply List.map_congr_left
    intro c _
    by_cases h : c.id = cid
    · simp [Function.comp, h, onAbort_id, onAbort_idem]
    · simp [Function.comp, h]
  · intro c hc
    rcases List.mem_filter.1 hc with ⟨hc, hopen⟩
    rcases List.mem_map.1 hc with ⟨b, hb, rfl⟩
    by_cases h : b.id = cid
    · exfalso
      simp only [h, if_true] at hopen
      by_cases ha : b.signal.aborted
      · have hab : b.onAbort = b := by rw [Connection.onAbort, if_pos ha]
        rw [hab, reachable_aborted_closed hreach b hb ha] at hopen
        simp at hopen
      · rw [onAbort_closed_of_not_aborted b (by simp [ha])] at hopen
        simp at hopen
    · simp [h]
  · apply forall₂_map_self
    intro c _
    by_cases h : c.id = cid
    · refine ⟨?_, ?_, ?_⟩
      · simp [h, onAbort_id]
      · intro _ ha
        simp only [h, if_true]
        rw [Connection.onAbort, if_neg (by simp [ha])]
        refine ⟨by rw [closeEntry_signal], by rw [closeEntry_signal], ?_, ?_⟩
        · by_cases hb : c.closed
          · simp [Connection.closeEntry, hb]
          · exact closeEntry_closed _ (by simp [hb])
        · intro hb hd
          simp [Connection.closeEntry, hb, SSEStream.closeStream, hd]
      · intro hid
        exact absurd h hid
    · simp [h]

/-- Closed witness for `abort_closes_once`: the state holding one freshly
opened connection is reachable, and the cleanup property holds there. -/
theorem abort_closes_once_witness :
    AbortCleanupSpec
      (ManagerState.init.openConn { destroyed := false, written := [], endCount := 0 } 5).1 0 :=
  abort_closes_once _ 0 (Reachable.openStep Reachable.init rfl)

theorem broadcast_prunes (st : ManagerState) (e : Option String) (p : String)
    (keep : Connection → Bool) :
    ∀ c ∈ (st.broadcast e p keep).1.connections,
      c.closed = false → c.stream.destroyed = false := by
  intro c hc
  rcases List.mem_map.1 hc with ⟨b, _, rfl⟩
  by_cases hb : b.closed
  · simp [hb]
  · by_cases hd : b.stream.destroyed
    · simp [hb, hd]
    · by_cases hk : keep b <;> simp [hb, hd, hk, SSEStream.write]

theorem close_removes (st : ManagerState) (cid : Nat) :
    ∀ c ∈ (st.close cid).sseConnections, c.id ≠ cid := by
  intro c hc
  rcases List.mem_filter.1 hc with ⟨hc, hopen⟩
  rcases List.mem_map.1 hc with ⟨b, _, rfl⟩
  by_cases h : b.id = cid
  · exfalso
    simp only [h, if_true] at hopen
    by_cases hb : b.closed
    · simp [Connection.closeEntry, hb] at hopen
    · rw [closeEntry_closed b (by simp at hb; exact hb)] at hopen
      simp at hopen
  · simp [h]

/-- The state invariant claim C8 asserts: every tracked entry was inserted
while its stream was alive, a broadcast leaves no tracked entry with a
destroyed stream (stale entries are pruned at the write attempt that
discovers them), and a close removes the entry from the tracked set
outright. -/
def ManagerInvariant (st : ManagerState) : Prop :=
  (∀ c ∈ st.connections, c.openedDestroyed = false)
  ∧ (∀ (e : Option String) (p : String) (keep : Connection → Bool),
      ∀ c ∈ (st.broadcast e p keep).1.connections,
        c.closed = false → c.stream.destroyed = false)
  ∧ (∀ cid : Nat, ∀ c ∈ (st.close cid).sseConnections, c.id ≠ cid)

/-- Claim C8: every reachable connection-manager state satisfies
`ManagerInvariant`: each tracked Connection had a non-destroyed stream at
insertion time, and the operations remove a Connection no later than the
point at which they discover its stream destroyed — after any broadcast no
tracked entry has a destroyed stream, and after a close no tracked entry
carries the closed id. -/
theorem manager_state_invariant : ∀ st : ManagerState,
    Reachable st → ManagerInvariant st := by
  intro st h
  exact ⟨reachable_opened_alive h,
    fun e p keep => broadcast_prunes st e p keep,
    fun cid => close_removes st cid⟩

/-- Closed witness for `manager_state_invariant`: a state reached by opening
one connection and broadcasting once satisfies the invariant. -/
theorem manager_state_invariant_witness :
    ManagerInvariant
      ((ManagerState.init.openConn { destroyed := false, written := [], endCount := 0 } 3).1.broadcast
        (some "x") "hello" (fun _ => true)).1 :=
  manager_state_invariant _
    (Reachable.broadcastStep (Reachable.openStep Reachable.init rfl))

/-- Claim C10: the tracked set is exposed to application code as the public
iterable `sseConnections` with a `size`: the size counts exactly the
not-closed entries, every element of the iterable is a tracked (not closed)
connection of the manager carrying a stream with its boolean `destroyed`
flag, and application code can write raw frame bytes directly to the stream
of an element (outside of broadcast): the chunk is appended to that
element's stream when the stream is not destroyed, while every other
element is untouched. -/
theorem sseConnections_exposure (st : ManagerState) (cid : Nat) (chunk : String) :
    st.sseSize = st.connections.countP (fun c => !c.closed)
    ∧ (∀ c ∈ st.sseConnections, c ∈ st.connections ∧ c.closed = false)
    ∧ List.Forall₂ (fun c c' =>
        c'.id = c.id
        ∧ (c.id = cid → c.stream.destroyed = false →
            c'.stream.written = c.stream.written ++ [chunk])
        ∧ (c.id = cid → c.stream.destroyed = true → c' = c)
        ∧ (c.id ≠ cid → c' = c))
      st.connections (st.writeRaw cid chunk).connections := by
  refine ⟨?_, ?_, ?_⟩
  · rw [ManagerState.sseSize, ManagerState.sseConnections, List.countP_eq_length_filter]
  · intro c hc
    rcases List.mem_filter.1 hc with ⟨hmem, hopen⟩
    exact ⟨hmem, by simpa using hopen⟩
  · apply forall₂_map_self
    intro c _
    by_cases h : c.id = cid
    · have hg : (if c.id = cid then { c with stream := c.stream.write chunk } else c)
          = { c with stream := c.stream.write chunk } := if_pos h
      refine ⟨by rw [hg], ?_, ?_, fun hne => absurd h hne⟩
      · intro _ hdf
        rw [hg]
        simp [SSEStream.write, hdf]
      · intro _ hdt
        rw [hg]
        have hw : c.stream.write chunk = c.stream := by simp [SSEStream.write, hdt]
        rw [hw]
    · have hg : (if c.id = cid then { c with stream := c.stream.write chunk } else c) = c :=
        if_neg h
      exact ⟨by rw [hg], fun hc _ => absurd hc h, fun hc _ => absurd hc h, fun _ => by rw [hg]⟩

/-- A normalized request as the dispatcher consumes it: the method and the
path the flat (method, path) registry matches on. -/
structure Request where
  method : String
  path : String
deriving DecidableEq

/-- A buffered response: status, headers, finite body. -/
structure Response where
  status : Nat
  headers : List (String × String)
  body : String
deriving DecidableEq

/-- Modelled from the spec: a route handler is invoked with the Request (and
may read and update the connection-manager state, e.g. by registering a
streaming connection); it either returns a Response together with the
updated manager state, or raises an error carrying a message. -/
def Handler : Type :=
  Request → ManagerState → Except String (Response × ManagerState)

/-- The method+path key a route is registered under. -/
abbrev RouteKey := String × String

/-- Modelled from the spec: the Route Registry is an ordered flat mapping
from (method, path) to handler. -/
def Registry : Type :=
  List (RouteKey × Handler)

/-- Modelled from the spec §4.1 and the registration boundary of §6:
`ssr.registerRoute(path, handler, method)` stores the mapping, overwriting
any prior handler for the same (method, path) pair. -/
def registerRoute (reg : Registry) (path : String) (handler : Handler)
    (method : String) : Registry :=
  ((method, path), handler) :: reg.filter (fun e => !(e.1.1 == method && e.1.2 == path))

/-- Modelled from the spec §4.1: `resolve(method, path) -> handler |
NotFound`, by exact string equality on method and path. -/
def resolve (reg : Registry) (method path : String) : Option Handler :=
  (reg.find? (fun e => e.1.1 == method && e.1.2 == path)).map (fun e => e.2)

/-- The 404 Response of the dispatcher's not-found path: empty body. -/
def notFoundResponse : Response :=
  { status := 404, headers := [], body := "" }

/-- The 500 Response of the dispatcher's error path: the error message as
the whole body (no stack trace), with an empty header set. -/
def handlerErrorResponse (msg : String) : Response :=
  { status := 500, headers := [], body := msg }

/-- Modelled from the spec §4.3: `dispatch(Request) -> Response`. Resolve a
handler via the registry; with none, answer 404 with an empty body;
otherwise invoke the handler once, passing errors to the 500 path. The
result also carries the registry and manager state after the dispatch and
the trace of (method, path) keys whose handler was invoked, so that "no
handler runs" and "state is unchanged" are expressible. -/
def dispatch (reg : Registry) (st : ManagerState) (req : Request) :
    Response × Registry × ManagerState × List RouteKey :=
  match resolve reg req.method req.path with
  | none => (notFoundResponse, reg, st, [])
  | some handler =>
    match handler req st with
    | .ok (resp, st1) => (resp, reg, st1, [(req.method, req.path)])
    | .error msg => (handlerErrorResponse msg, reg, st, [(req.method, req.path)])

/-- Claim C3: dispatching a Request whose (method, path) has no registered
handler returns a 404 Response with an empty body, leaves the registry and
the manager state untouched, and invokes no handler (empty invocation
trace). -/
theorem dispatch_not_found : ∀ (reg : Registry) (st : ManagerState) (req : Request),
    resolve reg req.method req.path = none →
    dispatch reg st req = (notFoundResponse, reg, st, [])
    ∧ notFoundResponse.status = 404 ∧ notFoundResponse.body = "" := by
  intro reg st req h
  refine ⟨?_, rfl, rfl⟩
  rw [dispatch, h]

/-- Closed witness for `dispatch_not_found`: the empty registry resolves
nothing, so a dispatch against it 404s without invoking anything. -/
theorem dispatch_not_found_witness :
    resolve ([] : Registry) "GET" "/nope" = none
    ∧ (dispatch ([] : Registry) ManagerState.init { method := "GET", path := "/nope" }
        = (notFoundResponse, ([] : Registry), ManagerState.init, [])
      ∧ notFoundResponse.status = 404 ∧ notFoundResponse.body = "") :=
  ⟨rfl, dispatch_not_found [] ManagerState.init { method := "GET", path := "/nope" } rfl⟩

/-- Claim C4: when the resolved handler raises an error, dispatch returns a
500 Response whose body is exactly the error message (no stack trace) with
an empty header set, the handler is the only invocation in the trace, and
both the registry and the connection manager state after the dispatch are
the ones from before it. -/
theorem dispatch_handler_error : ∀ (reg : Registry) (st : ManagerState)
    (req : Request) (handler : Handler) (msg : String),
    resolve reg req.method req.path = some handler →
    handler req st = .error msg →
    dispatch reg st req
      = (handlerErrorResponse msg, reg, st, [(req.method, req.path)])
    ∧ (handlerErrorResponse msg).status = 500
    ∧ (handlerErrorResponse msg).body = msg
    ∧ (handlerErrorResponse msg).headers = []
    ∧ (dispatch reg st req).2.1 = reg
    ∧ (dispatch reg st req).2.2.1 = st := by
  intro reg st req handler msg hres herr
  have hmain : dispatch reg st req
      = (handlerErrorResponse msg, reg, st, [(req.method, req.path)]) := by
    simp [dispatch, hres, herr]
  exact ⟨hmain, rfl, rfl, rfl, by rw [hmain], by rw [hmain]⟩

/-- A handler that always raises, for exercising the dispatcher's error
path on a concrete input. -/
def boomHandler : Handler :=
  fun _ _ => Except.error "boom"

/-- A registry holding only `boomHandler` under GET /x. -/
def boomRegistry : Registry :=
  registerRoute [] "/x" boomHandler "GET"

/-- Closed witness for `dispatch_handler_error`: dispatching to the
always-raising handler yields the 500 response and unchanged state. -/
theorem dispatch_handler_error_witness :
    dispatch boomRegistry ManagerState.init { method := "GET", path := "/x" }
      = (handlerErrorResponse "boom", boomRegistry, ManagerState.init, [("GET", "/x")])
    ∧ (handlerErrorResponse "boom").status = 500
    ∧ (handlerErrorResponse "boom").body = "boom"
    ∧ (handlerErrorResponse "boom").headers = []
    ∧ (dispatch boomRegistry ManagerState.init
        { method := "GET", path := "/x" }).2.1 = boomRegistry
    ∧ (dispatch boomRegistry ManagerState.init
        { method := "GET", path := "/x" }).2.2.1 = ManagerState.init :=
  dispatch_handler_error boomRegistry ManagerState.init
    { method := "GET", path := "/x" } boomHandler "boom" rfl rfl

/-- Registries the system can build: starting empty, routes are only added
through `registerRoute`. -/
inductive RegistryReachable : Registry → Prop where
  | init : RegistryReachable []
  | step {reg : Registry} {path : String} {handler : Handler} {method : String} :
      RegistryReachable reg → RegistryReachable (registerRoute reg path handler method)

theorem registry_at_most_one {reg : Registry} (h : RegistryReachable reg) :
    ∀ m p : String, (reg.filter (fun e => e.1.1 == m && e.1.2 == p)).length ≤ 1 := by
  induction h with
  | init => intro m p; simp
  | step hr ih =>
      rename_i reg0 path handler method
      intro m p
      rw [registerRoute, List.filter_cons]
      dsimp only
      by_cases hkey : (method == m && path == p) = true
      · rw [if_pos hkey]
        rw [Bool.and_eq_true] at hkey
        have hme : method = m := eq_of_beq hkey.1
        have hpe : path = p := eq_of_beq hkey.2
        subst hme hpe
        have hnil : (reg0.filter (fun e => !(e.1.1 == method && e.1.2 == path))).filter
            (fun e => e.1.1 == method && e.1.2 == path) = [] := by
          simp [List.filter_filter, Bool.not_and_self, Bool.and_not_self]
        rw [hnil]
        simp
      · rw [if_neg hkey]
        calc ((reg0.filter (fun e => !(e.1.1 == method && e.1.2 == path))).filter
                (fun e => e.1.1 == m && e.1.2 == p)).length
            ≤ (reg0.filter (fun e => e.1.1 == m && e.1.2 == p)).length :=
              ((List.filter_sublist _).filter _).length_le
          _ ≤ 1 := ih m p

/-- Claim C5: registering two handlers for the same (method, path), `h1` then
`h2`, leaves a registry equal to one where only `h2` was registered — `h1`
is not reachable at all — so a matching dispatch resolves `h2` and invokes
it exactly once (a single-entry invocation trace) with its result
determining the response; and in every registry built by `registerRoute`,
at most one handler is bound per (method, path). -/
theorem register_last_wins : ∀ (reg : Registry) (method path : String)
    (h1 h2 : Handler) (st : ManagerState) (req : Request),
    registerRoute (registerRoute reg path h1 method) path h2 method
      = registerRoute reg path h2 method
    ∧ resolve (registerRoute (registerRoute reg path h1 method) path h2 method) method path
        = some h2
    ∧ (∀ reg0 : Registry, RegistryReachable reg0 →
        ∀ m p : String, (reg0.filter (fun e => e.1.1 == m && e.1.2 == p)).length ≤ 1)
    ∧ (req.method = method → req.path = path →
        dispatch (registerRoute (registerRoute reg path h1 method) path h2 method) st req
          = match h2 req st with
            | .ok (resp, st1) =>
                (resp, registerRoute reg path h2 method, st1, [(req.method, req.path)])
            | .error msg =>
                (handlerErrorResponse msg, registerRoute reg path h2 method, st,
                  [(req.method, req.path)])) := by
  intro reg method path h1 h2 st req
  have ha : registerRoute (registerRoute reg path h1 method) path h2 method
      = registerRoute reg path h2 method := by
    rw [registerRoute, registerRoute, registerRoute]
    congr 1
    rw [List.filter_cons]
    dsimp only
    rw [if_neg (by simp)]
    simp [List.filter_filter, Bool.and_self]
  have hb : resolve (registerRoute (registerRoute reg path h1 method) path h2 method)
      method path = some h2 := by
    rw [ha]
    simp [resolve, registerRoute]
  refine ⟨ha, hb, fun reg0 hreg0 => registry_at_most_one hreg0, ?_⟩
  intro hm hp
  subst hm hp
  have hres : resolve (registerRoute reg req.path h2 req.method)
      req.method req.path = some h2 := by
    rw [← ha]
    exact hb
  cases hcall : h2 req st with
  | error msg => simp [dispatch, ha, hres, hcall]
  | ok pair =>
      obtain ⟨resp, st1⟩ := pair
      simp [dispatch, ha, hres, hcall]
